import Mathlib

/-!
Verification development for the django-bird-playground host controller
(src/django.ts) and its Pyodide worker (src/worker/pyodide.worker.ts).

The TypeScript source is shallowly embedded: module-level mutable state
becomes explicit state records, event-handler code becomes a step function
on those records, and external collaborators (the DOM, micropip, the
Pyodide runtime) become explicit inputs.
-/

namespace DjangoBird

/-! ## Message correlation and transport (django.ts, sendMessage and
setupWorkerListeners)

The host keeps a monotone counter `messageId`, a `pendingMessages` map from
id to resolver pair, and settles each pending promise at most once.  We
model the resolver pair by its key alone (the id identifies the promise),
record every resolve or reject call in a `settled` log, and keep the list
of all ids ever handed out by sendMessage in `allocated`. -/

/-- Outcome recorded when a pending promise is settled: `resolve(result)`,
`reject(new Error(error))` on a worker error reply, or
`reject(new Error("Worker message timeout: ..."))` when the 30000 ms timer
set by sendMessage fires first. -/
inductive Outcome
  | resolved
  | rejectedWorkerError (msg : String)
  | rejectedTimeout
deriving DecidableEq, Repr

/-- One entry of the settlement log: which pending id was settled, and how. -/
structure Settled where
  id : Nat
  outcome : Outcome
deriving DecidableEq, Repr

/-- The WorkerResponse envelope received by worker.onmessage in
setupWorkerListeners: optional id, truthiness of the ready flag, optional
result value, optional error string, truthiness of the progress field. -/
structure WorkerResponseMsg where
  id : Option Nat
  ready : Bool
  result : Option String
  error : Option String
  progressFlag : Bool
deriving DecidableEq, Repr

/-- JavaScript truthiness of the optional error string: absent and the
empty string are falsy, every other string is truthy. -/
def errTruthy : Option String → Bool
  | some e => e ≠ ""
  | none => false

/-- How setupWorkerListeners settles a matched pending entry: reject with
the error when the error field is truthy, otherwise resolve with result. -/
def replySettle (r : WorkerResponseMsg) : Outcome :=
  if errTruthy r.error then Outcome.rejectedWorkerError (r.error.getD "")
  else Outcome.resolved

/-- The DjangoState fields relevant to the transport: worker handle
presence, the ready and loading flags, the messageId counter, the key set
of pendingMessages, plus two history fields (ids ever allocated by
sendMessage, and the log of settle calls) that record observable actions. -/
structure HostState where
  workerUp : Bool
  ready : Bool
  loading : Bool
  messageId : Nat
  pending : Finset Nat
  allocated : List Nat
  settled : List Settled
deriving DecidableEq

/-- The atomic events driving the host transport state: the synchronous
prefix of initializeDjango (worker construction), the synchronous prefix of
sendMessage (id allocation, pending registration, postMessage, timer
arming), arrival of one worker message, and expiry of the 30000 ms timer
armed for a given id. -/
inductive HostEvent
  | initWorker
  | send
  | recv (r : WorkerResponseMsg)
  | timerFire (i : Nat)
deriving DecidableEq

/-- Transition function translated from django.ts.  send mirrors
sendMessage lines 126-155 (throwing, hence not changing state, when the
worker is missing or not ready); recv mirrors the worker.onmessage handler
of setupWorkerListeners lines 76-104; timerFire mirrors the setTimeout
callback of sendMessage lines 148-153. -/
def step (s : HostState) : HostEvent → HostState
  | HostEvent.initWorker =>
      if s.loading || s.ready then s
      else { s with workerUp := true, loading := true }
  | HostEvent.send =>
      if s.workerUp = false then s
      else if s.ready = false then s
      else
        { s with
          messageId := s.messageId + 1,
          pending := insert (s.messageId + 1) s.pending,
          allocated := s.allocated ++ [s.messageId + 1] }
  | HostEvent.recv r =>
      if r.progressFlag then s
      else if r.ready then { s with ready := true, loading := false }
      else
        match r.id with
        | some i =>
            if i ∈ s.pending then
              { s with
                pending := s.pending.erase i,
                settled := s.settled ++ [{ id := i, outcome := replySettle r }] }
            else s
        | none => s
  | HostEvent.timerFire i =>
      if i ∈ s.pending then
        { s with
          pending := s.pending.erase i,
          settled := s.settled ++ [{ id := i, outcome := Outcome.rejectedTimeout }] }
      else s

/-- The state produced by createInitialState in django.ts. -/
def initialState : HostState :=
  { workerUp := false, ready := false, loading := false, messageId := 0,
    pending := ∅, allocated := [], settled := [] }

/-- States reachable from createInitialState by any event sequence. -/
inductive Reachable : HostState → Prop
  | init : Reachable initialState
  | next (s : HostState) (e : HostEvent) : Reachable s → Reachable (step s e)

/-- Concrete worker message carrying the ready flag, as posted by the
worker once its bootstrap promise resolves. -/
def readyMsg : WorkerResponseMsg :=
  { id := none, ready := true, result := none, error := none, progressFlag := false }

/-- A successful correlated reply for id 1. -/
def sampleReply : WorkerResponseMsg :=
  { id := some 1, ready := false, result := some "ok", error := none,
    progressFlag := false }

/-- A reachable host state with one pending request: worker constructed,
ready signal received, one sendMessage issued (id 1 pending). -/
def sampleHost : HostState :=
  step (step (step initialState HostEvent.initWorker)
    (HostEvent.recv readyMsg)) HostEvent.send

/-- destroyDjango from django.ts lines 287-295: terminate and drop the
worker handle, clear pendingMessages, reset ready and loading. -/
def destroyDjango (s : HostState) : HostState :=
  { s with workerUp := false, pending := ∅, ready := false, loading := false }

/-! ## Singleton lifecycle (django.ts, class DjangoPlayground) -/

/-- The private instance fields of class DjangoPlayground that cleanup
touches: the state object, the initialized flag, the in-flight promise (a
promise is identified by the number of the attempt that created it), and
the stored config (modelled by its package list). -/
structure PlaygroundInstance where
  state : Option HostState
  initialized : Bool
  initPromise : Option Nat
  configPackages : List String
deriving DecidableEq

/-- The instance produced by the private constructor. -/
def freshInstance : PlaygroundInstance :=
  { state := none, initialized := false, initPromise := none, configPackages := [] }

/-- DjangoPlayground.cleanup acting on the static singleton reference:
getInstance returns the stored instance or constructs a fresh one, then
destroy runs destroyDjango on any state, nulls every field and releases
the singleton reference.  The function is total, so calling it in any
state (including an already torn down one) produces no error. -/
def cleanup (g : Option PlaygroundInstance) : Option PlaygroundInstance :=
  match g with
  | some _ => none
  | none => none

/-- The fields of DjangoPlayground that drive re-entrancy of init, plus
two observation counters: the number of doInitialize invocations and the
number of Worker constructions performed by initializeDjango. -/
structure Controller where
  initialized : Bool
  initPromise : Option Nat
  attempts : Nat
  workerCreations : Nat
deriving DecidableEq, Repr

/-- Value returned by the private initialize method of DjangoPlayground:
an immediately resolved promise when already initialized, the existing
in-flight promise, or a freshly started doInitialize promise. -/
inductive InitReturn
  | alreadyInitialized
  | joined (p : Nat)
  | started (p : Nat)
deriving DecidableEq, Repr

/-- Synchronous prefix of DjangoPlayground.initialize (django.ts lines
460-471): return early when initialized, join the in-flight promise when
one exists, otherwise start doInitialize.  The prefix of a fresh
doInitialize run (through initializeDjango) synchronously constructs the
Worker, so workerCreations increases exactly when a run starts. -/
def initCall (c : Controller) : Controller × InitReturn :=
  if c.initialized then (c, InitReturn.alreadyInitialized)
  else
    match c.initPromise with
    | some p => (c, InitReturn.joined p)
    | none =>
        ({ c with
            attempts := c.attempts + 1,
            initPromise := some (c.attempts + 1),
            workerCreations := c.workerCreations + 1 },
          InitReturn.started (c.attempts + 1))

/-- Settlement of the in-flight doInitialize on success (django.ts line
523): the initialized flag is set; the resolved promise stays stored. -/
def attemptSucceeds (c : Controller) : Controller :=
  { c with initialized := true }

/-- Settlement of the in-flight doInitialize on failure (django.ts line
529): the in-flight promise is cleared and initialized stays false. -/
def attemptFails (c : Controller) : Controller :=
  { c with initPromise := none }

/-- What ensureInitialized did for a public call such as render or
renderDOM: proceed directly, await the existing in-flight promise, or
start a fresh initialization attempt. -/
inductive EnsureAction
  | proceeded
  | joinedInit (p : Nat)
  | startedInit (p : Nat)
deriving DecidableEq, Repr

/-- DjangoPlayground.ensureInitialized (django.ts lines 746-750): when not
initialized it awaits this.initialize with empty options. -/
def ensureInit (c : Controller) : Controller × EnsureAction :=
  if c.initialized then (c, EnsureAction.proceeded)
  else
    match initCall c with
    | (c2, InitReturn.alreadyInitialized) => (c2, EnsureAction.proceeded)
    | (c2, InitReturn.joined p) => (c2, EnsureAction.joinedInit p)
    | (c2, InitReturn.started p) => (c2, EnsureAction.startedInit p)

/-- The controller before any init call. -/
def initialController : Controller :=
  { initialized := false, initPromise := none, attempts := 0, workerCreations := 0 }

/-! ## Worker package installation (pyodide.worker.ts, installPackages)

The module-level installedPackages set and the micropip collaborator are
explicit arguments; micropip is a map from package name to none (install
succeeded) or some message (install raised). -/

/-- The PackageInstallResult object assembled by installPackages. -/
structure PackageInstallResult where
  success : Bool
  installed : List String
  skipped : List String
  errors : List String
deriving DecidableEq, Repr

/-- installPackages from pyodide.worker.ts lines 155-183, with the result
assembled on return instead of by mutation: a name already in the set is
skipped, otherwise micropip.install is attempted; on success the name is
added to the set and to installed, on failure the message is pushed to
errors and success is cleared.  Returns the result and the new set. -/
def installPackages (micropip : String → Option String) (set : Finset String) :
    List String → PackageInstallResult × Finset String
  | [] => ({ success := true, installed := [], skipped := [], errors := [] }, set)
  | n :: rest =>
      if n ∈ set then
        let out := installPackages micropip set rest
        ({ out.1 with skipped := n :: out.1.skipped }, out.2)
      else
        match micropip n with
        | none =>
            let out := installPackages micropip (insert n set) rest
            ({ out.1 with installed := n :: out.1.installed }, out.2)
        | some msg =>
            let out := installPackages micropip set rest
            ({ out.1 with
                errors := (n ++ ": " ++ msg) :: out.1.errors,
                success := false }, out.2)

/-- installPackage from pyodide.worker.ts lines 143-153: skip when already
installed, otherwise attempt micropip.install and add on success; a raise
propagates to the caller. -/
def installPackageOne (micropip : String → Option String) (set : Finset String)
    (n : String) : Except String (Finset String) :=
  if n ∈ set then Except.ok set
  else
    match micropip n with
    | none => Except.ok (insert n set)
    | some msg => Except.error msg

/-! ## Worker message handler (pyodide.worker.ts, self.onmessage) -/

/-- Opaque remote values carried in a successful reply. -/
inductive RVal
  | installedOne
  | installBatch (r : PackageInstallResult)
  | renderRes (tag : String)
  | batchRes (tag : String)
  | pyVal (tag : String)
deriving DecidableEq, Repr

/-- The data payload of a WorkerMessage, a record of the fields the
handler arms read; absent fields are none. -/
structure WorkerMsgData where
  packageName : Option String
  packageNames : Option (List String)
  template : Option String
  contextJson : Option String
  code : Option String
deriving DecidableEq, Repr

/-- The WorkerMessage envelope: id, type tag, data payload. -/
structure WorkerMessage where
  id : Nat
  type : String
  data : WorkerMsgData
deriving DecidableEq, Repr

/-- A message posted by the worker back to the host from the onmessage
handler: correlated id plus either a result or an error string. -/
structure WorkerReply where
  id : Option Nat
  result : Option RVal
  error : Option String
deriving DecidableEq, Repr

/-- External collaborators of the handler: the outcome of the bootstrap
initPromise (some message when it rejected), micropip, and the outcomes of
the Pyodide-delegated operations.  The worker renderTemplate and
batchRender functions catch internally and always return a value, so they
are total; runPython can raise. -/
structure WorkerEnv where
  initErr : Option String
  micropip : String → Option String
  renderResult : WorkerMsgData → RVal
  batchResult : WorkerMsgData → RVal
  pythonResult : WorkerMsgData → Except String RVal

/-- The switch of the onmessage handler (pyodide.worker.ts lines 310-334)
over WORKER_MESSAGE_TYPES values, threading the installedPackages set.
Reading a field from an absent payload list raises, as iterating an
undefined packageNames does in the source; the default arm raises the
unknown message type error. -/
def dispatchOp (env : WorkerEnv) (set : Finset String) (m : WorkerMessage) :
    Except String RVal × Finset String :=
  if m.type = "installPackage" then
    match m.data.packageName with
    | some n =>
        match installPackageOne env.micropip set n with
        | Except.ok set2 => (Except.ok RVal.installedOne, set2)
        | Except.error e => (Except.error e, set)
    | none => (Except.error "packageName is undefined", set)
  else if m.type = "installPackages" then
    match m.data.packageNames with
    | some names =>
        let out := installPackages env.micropip set names
        (Except.ok (RVal.installBatch out.1), out.2)
    | none => (Except.error "packageNames is not iterable", set)
  else if m.type = "renderTemplate" then
    (Except.ok (env.renderResult m.data), set)
  else if m.type = "batchRender" then
    (Except.ok (env.batchResult m.data), set)
  else if m.type = "runPython" then
    match env.pythonResult m.data with
    | Except.ok v => (Except.ok v, set)
    | Except.error e => (Except.error e, set)
  else (Except.error ("Unknown message type: " ++ m.type), set)

/-- The self.onmessage handler (pyodide.worker.ts lines 302-343): await
initPromise (a rejection is caught and posted as an error reply), run the
switch inside the try, post exactly one message: the result on success or
the caught error string on failure, both echoing the incoming id. -/
def onmessage (env : WorkerEnv) (set : Finset String) (m : WorkerMessage) :
    List WorkerReply × Finset String :=
  match env.initErr with
  | some e => ([{ id := some m.id, result := none, error := some e }], set)
  | none =>
      match dispatchOp env set m with
      | (Except.ok v, set2) =>
          ([{ id := some m.id, result := some v, error := none }], set2)
      | (Except.error e, set2) =>
          ([{ id := some m.id, result := none, error := some e }], set2)

/-! ## DOM scanning and batch orchestration (django.ts, scanDOMForTemplates,
extractElementData, renderDOMTemplates, renderDOMElement)

JSON.parse of an attribute is external; an attribute value is modelled by
what the scanner observes of it: absent, present but empty (falsy, so the
source never parses it), present with invalid JSON (JSON.parse raises), or
present with a parsed value.  A parsed value is inspected only as object,
array or primitive, and array items only as string or not. -/

/-- An item of a parsed JSON array: a string, or a non-string value
carrying a tag so that distinct non-string items stay distinct. -/
inductive JsonItem
  | strItem (s : String)
  | nonStr (k : Nat)
deriving DecidableEq, Repr

/-- A parsed JSON value, at the granularity the scanner inspects it. -/
inductive ParsedJson
  | obj (ctx : List (String × String))
  | arr (items : List JsonItem)
  | prim
deriving DecidableEq, Repr

/-- A DOM attribute as the scanner observes it. -/
inductive AttrVal
  | absent
  | emptyStr
  | invalid
  | valid (j : ParsedJson)
deriving DecidableEq, Repr

/-- A DOM element, restricted to what the scanner reads: the
data-django-template attribute (which carries the context JSON), the
data-django-packages attribute, innerHTML, and the loading and error
message attributes. -/
structure DomElem where
  templateAttr : AttrVal
  packagesAttr : AttrVal
  innerHTML : String
  loadingAttr : Option String
  errorAttr : Option String
deriving DecidableEq, Repr

/-- The DomElementData record produced by extractElementData (without the
back reference to the element, which its position supplies). -/
structure DomElementData where
  template : String
  context : List (String × String)
  packages : List String
  loadingMessage : String
  errorMessage : String
deriving DecidableEq, Repr

/-- extractElementData from django.ts lines 613-652: parse the context
from the template attribute (throwing on invalid JSON, defaulting to the
empty mapping when the parse result is not a plain object), parse the
packages attribute (throwing on invalid JSON, keeping only string items of
an array), and fill the message defaults. -/
def extractElementData (el : DomElem) : Except String DomElementData :=
  match
    (match el.templateAttr with
      | AttrVal.absent => Except.ok []
      | AttrVal.emptyStr => Except.ok []
      | AttrVal.invalid => Except.error "Invalid JSON in data-django-template"
      | AttrVal.valid (ParsedJson.obj ctx) => Except.ok ctx
      | AttrVal.valid _ => Except.ok []) with
  | Except.error e => Except.error e
  | Except.ok context =>
      match
        (match el.packagesAttr with
          | AttrVal.absent => Except.ok []
          | AttrVal.emptyStr => Except.ok []
          | AttrVal.invalid => Except.error "Invalid JSON in data-django-packages"
          | AttrVal.valid (ParsedJson.arr items) =>
              Except.ok (items.filterMap (fun it =>
                match it with
                | JsonItem.strItem s => some s
                | JsonItem.nonStr _ => none))
          | AttrVal.valid _ => Except.ok []) with
      | Except.error e => Except.error e
      | Except.ok packages =>
          Except.ok
            { template := el.innerHTML,
              context := context,
              packages := packages,
              loadingMessage := el.loadingAttr.getD "Rendering Django template...",
              errorMessage := el.errorAttr.getD "Template render failed" }

/-- JavaScript Set-based deduplication preserving first-occurrence order,
as in the spread of new Set in django.ts. -/
def setDedup {α : Type} [DecidableEq α] (l : List α) : List α :=
  l.foldl (fun acc a => if a ∈ acc then acc else acc ++ [a]) []

/-- First loop of scanDOMForTemplates (lines 570-580) over the elements
selected by the template-attribute query: push extracted data and its
packages, or record a per-element error and drop the element. -/
def scanTemplatePass : List DomElem →
    List DomElementData × List JsonItem × List String
  | [] => ([], [], [])
  | el :: rest =>
      let out := scanTemplatePass rest
      match extractElementData el with
      | Except.ok d =>
          (d :: out.1, d.packages.map JsonItem.strItem ++ out.2.1, out.2.2)
      | Except.error e =>
          (out.1, out.2.1, ("Invalid element data: " ++ e) :: out.2.2)

/-- Second loop of scanDOMForTemplates (lines 583-600) over elements
selected by the packages-attribute query: skip elements that also carry
the template attribute, parse the packages attribute when truthy, push the
raw array items, record an error on invalid JSON. -/
def scanPackagePass : List DomElem → List JsonItem × List String
  | [] => ([], [])
  | el :: rest =>
      let out := scanPackagePass rest
      if el.packagesAttr = AttrVal.absent then out
      else if el.templateAttr ≠ AttrVal.absent then out
      else
        match el.packagesAttr with
        | AttrVal.absent => out
        | AttrVal.emptyStr => out
        | AttrVal.invalid =>
            (out.1, ("Invalid packages attribute: unexpected token") :: out.2)
        | AttrVal.valid (ParsedJson.arr items) => (items ++ out.1, out.2)
        | AttrVal.valid _ => out

/-- Elements matched by the querySelectorAll on the template attribute. -/
def templateElems (dom : List DomElem) : List DomElem :=
  dom.filter (fun el => el.templateAttr ≠ AttrVal.absent)

/-- The DomScanResult record. -/
structure DomScanResult where
  elements : List DomElementData
  packages : List JsonItem
  errors : List String
  success : Bool
deriving DecidableEq, Repr

/-- scanDOMForTemplates from django.ts lines 561-611: both passes, package
deduplication with Set semantics, success iff no per-element error. -/
def scanDOMForTemplates (dom : List DomElem) : DomScanResult :=
  let pass1 := scanTemplatePass (templateElems dom)
  let pass2 := scanPackagePass dom
  { elements := pass1.1,
    packages := setDedup (pass1.2.1 ++ pass2.1),
    errors := pass1.2.2 ++ pass2.2,
    success := (pass1.2.2 ++ pass2.2).isEmpty }

/-- Package collection of doInitialize (django.ts lines 486-488): the
configured packages unioned with the scan result and deduplicated. -/
def collectPackages (optPackages : List String) (dom : List DomElem) :
    List JsonItem :=
  setDedup (optPackages.map JsonItem.strItem ++ (scanDOMForTemplates dom).packages)

/-- The sequence of installPackages payloads dispatched over the transport
during one DOM-driven batch run on the path where every request resolves
and autoRender is enabled: doInitialize dispatches the deduplicated union
once when nonempty (line 507), then renderDOMTemplates rescans and
renderDOMElement dispatches each element-specific package list when
nonempty (line 683). -/
def batchRunInstallDispatches (optPackages : List String) (dom : List DomElem) :
    List (List JsonItem) :=
  let unique := collectPackages optPackages dom
  (if unique.length > 0 then [unique] else [])
    ++ ((scanDOMForTemplates dom).elements.filterMap (fun d =>
          if d.packages.length > 0 then some (d.packages.map JsonItem.strItem)
          else none))

/-- Outcome of processing one element inside renderDOMElement, as decided
by the remote collaborators: the render resolved with html, the render
call rejected, or the element-specific install call rejected.  A batch
install result with success false only logs a warning and does not stop
the render, so it needs no case of its own. -/
inductive ElemOutcome
  | rendered (html : String)
  | renderFailed (msg : String)
  | installRejected (msg : String)
deriving DecidableEq, Repr

/-- The observable state renderDOMTemplates leaves an element in: its
innerHTML and its django- class flags. -/
structure ElemView where
  content : String
  loadingClass : Bool
  renderedClass : Bool
  errorClass : Bool
deriving DecidableEq, Repr

/-- showElementError from django.ts lines 704-708. -/
def showElementError (d : DomElementData) (msg : String) : ElemView :=
  { content := "<div class=\"django-error\">" ++ d.errorMessage ++ ": " ++ msg
      ++ "</div>",
    loadingClass := false, renderedClass := false, errorClass := true }

/-- renderDOMElement from django.ts lines 672-702: show the loading
state, install element packages, render; on success write the rendered
html and swap classes, on any rejection restore the original content,
remove the loading class and rethrow. -/
def renderDOMElement (_d : DomElementData) (out : ElemOutcome) :
    Except String ElemView :=
  match out with
  | ElemOutcome.rendered html =>
      Except.ok { content := html, loadingClass := false,
                  renderedClass := true, errorClass := false }
  | ElemOutcome.renderFailed msg => Except.error msg
  | ElemOutcome.installRejected msg => Except.error msg

/-- The try/catch body of the renderDOMTemplates loop (lines 662-669):
a rejection from renderDOMElement is caught and routed to
showElementError, never rethrown. -/
def processElement (d : DomElementData) (out : ElemOutcome) : ElemView :=
  match renderDOMElement d out with
  | Except.ok v => v
  | Except.error msg => showElementError d msg

/-- The renderDOMTemplates loop over the scanned elements, with outcomes
indexed by element position.  The function is total: no exception from an
individual element escapes the loop. -/
def renderRun (outcomes : Nat → ElemOutcome) : Nat → List DomElementData →
    List ElemView
  | _, [] => []
  | i, d :: rest => processElement d (outcomes i) :: renderRun outcomes (i + 1) rest

/-- Placeholder element data for list indexing defaults. -/
def dummyData : DomElementData :=
  { template := "", context := [], packages := [], loadingMessage := "",
    errorMessage := "" }

/-- Placeholder element view for list indexing defaults. -/
def dummyView : ElemView :=
  { content := "", loadingClass := false, renderedClass := false,
    errorClass := false }

/-- An element declaring the dependency foo with a valid empty context. -/
def fooElem : DomElem :=
  { templateAttr := AttrVal.valid (ParsedJson.obj []),
    packagesAttr := AttrVal.valid (ParsedJson.arr [JsonItem.strItem "foo"]),
    innerHTML := "x", loadingAttr := none, errorAttr := none }

/-- An element whose context attribute holds invalid JSON. -/
def badCtxElem : DomElem :=
  { templateAttr := AttrVal.invalid,
    packagesAttr := AttrVal.absent,
    innerHTML := "y", loadingAttr := none, errorAttr := none }

/-- An element with a valid context and no packages. -/
def goodElem : DomElem :=
  { templateAttr := AttrVal.valid (ParsedJson.obj [("name", "World")]),
    packagesAttr := AttrVal.absent,
    innerHTML := "z", loadingAttr := none, errorAttr := none }

/-- A late reply for id 5, an id with no pending entry in sampleHost. -/
def lateReply : WorkerResponseMsg :=
  { id := some 5, ready := false, result := none, error := some "late",
    progressFlag := false }

/-- Outcome assignment where the first element fails to render and every
other element renders. -/
def oneFailOutcomes : Nat → ElemOutcome := fun i =>
  if i = 0 then ElemOutcome.renderFailed "boom" else ElemOutcome.rendered "ok"

/-- Transport invariant: allocated ids are strictly increasing and bounded
by the counter, pending and settled ids come from allocated ones, no id is
ever settled twice, and no settled id is still pending. -/
def Inv (s : HostState) : Prop :=
  s.allocated.Pairwise (fun a b => a < b)
  ∧ (∀ i ∈ s.allocated, 1 ≤ i ∧ i ≤ s.messageId)
  ∧ (∀ i ∈ s.pending, i ∈ s.allocated)
  ∧ (∀ e ∈ s.settled, e.id ∈ s.allocated)
  ∧ (s.settled.map Settled.id).Nodup
  ∧ (∀ e ∈ s.settled, e.id ∉ s.pending)

theorem inv_initial : Inv initialState := by
  refine ⟨?_, ?_, ?_, ?_, ?_, ?_⟩ <;> simp [initialState, Inv]

theorem inv_step (s : HostState) (e : HostEvent) (h : Inv s) : Inv (step s e) := by
  obtain ⟨h1, h2, h3, h4, h5, h6⟩ := h
  cases e with
  | initWorker =>
      by_cases hc : (s.loading || s.ready) = true <;>
        simp only [step, hc, if_true, if_false] <;>
        exact ⟨h1, h2, h3, h4, h5, h6⟩
  | send =>
      by_cases hw : s.workerUp = false
      · simpa [step, hw] using ⟨h1, h2, h3, h4, h5, h6⟩
      · by_cases hr : s.ready = false
        · simpa [step, hw, hr] using ⟨h1, h2, h3, h4, h5, h6⟩
        · have hstep : step s HostEvent.send =
              { s with
                messageId := s.messageId + 1,
                pending := insert (s.messageId + 1) s.pending,
                allocated := s.allocated ++ [s.messageId + 1] } := by
            simp [step, hw, hr]
          rw [hstep]
          refine ⟨?_, ?_, ?_, ?_, ?_, ?_⟩
          · rw [List.pairwise_append]
            refine ⟨h1, List.pairwise_singleton _ _, ?_⟩
            intro a ha b hb
            rw [List.mem_singleton] at hb
            subst hb
            exact Nat.lt_succ_of_le (h2 a ha).2
          · intro i hi
            rcases List.mem_append.mp hi with hi | hi
            · exact ⟨(h2 i hi).1, Nat.le_succ_of_le (h2 i hi).2⟩
            · rw [List.mem_singleton] at hi
              subst hi
              exact ⟨Nat.succ_le_succ (Nat.zero_le _), Nat.le_refl _⟩
          · intro i hi
            rcases Finset.mem_insert.mp hi with hi | hi
            · subst hi
              exact List.mem_append.mpr (Or.inr (List.mem_singleton.mpr rfl))
            · exact List.mem_append.mpr (Or.inl (h3 i hi))
          · intro e he
            exact List.mem_append.mpr (Or.inl (h4 e he))
          · exact h5
          · intro e he hmem
            rcases Finset.mem_insert.mp hmem with hid | hid
            · have := (h2 e.id (h4 e he)).2
              omega
            · exact h6 e he hid
  | recv r =>
      by_cases hp : r.progressFlag = true
      · simpa [step, hp] using ⟨h1, h2, h3, h4, h5, h6⟩
      · by_cases hrdy : r.ready = true
        · have hstep : step s (HostEvent.recv r) =
              { s with ready := true, loading := false } := by
            simp [step, hp, hrdy]
          rw [hstep]
          exact ⟨h1, h2, h3, h4, h5, h6⟩
        · cases hid : r.id with
          | none => simpa [step, hp, hrdy, hid] using ⟨h1, h2, h3, h4, h5, h6⟩
          | some i =>
              by_cases hin : i ∈ s.pending
              · have hstep : step s (HostEvent.recv r) =
                    { s with
                      pending := s.pending.erase i,
                      settled := s.settled ++
                        [{ id := i, outcome := replySettle r }] } := by
                  simp [step, hp, hrdy, hid, hin]
                rw [hstep]
                refine ⟨h1, h2, ?_, ?_, ?_, ?_⟩
                · intro j hj
                  exact h3 j (Finset.mem_of_mem_erase hj)
                · intro e he
                  rcases List.mem_append.mp he with he | he
                  · exact h4 e he
                  · rw [List.mem_singleton] at he
                    subst he
                    exact h3 i hin
                · rw [List.map_append, List.nodup_append]
                  refine ⟨h5, List.nodup_singleton _, ?_⟩
                  intro a ha hb
                  simp only [List.map_cons, List.map_nil, List.mem_singleton] at hb
                  subst hb
                  rcases List.mem_map.mp ha with ⟨e, he, hei⟩
                  exact h6 e he (hei ▸ hin)
                · intro e he
                  rcases List.mem_append.mp he with he | he
                  · intro hmem
                    exact h6 e he (Finset.mem_of_mem_erase hmem)
                  · rw [List.mem_singleton] at he
                    subst he
                    exact Finset.not_mem_erase _ _
              · simpa [step, hp, hrdy, hid, hin] using ⟨h1, h2, h3, h4, h5, h6⟩
  | timerFire i =>
      by_cases hin : i ∈ s.pending
      · have hstep : step s (HostEvent.timerFire i) =
            { s with
              pending := s.pending.erase i,
              settled := s.settled ++
                [{ id := i, outcome := Outcome.rejectedTimeout }] } := by
          simp [step, hin]
        rw [hstep]
        refine ⟨h1, h2, ?_, ?_, ?_, ?_⟩
        · intro j hj
          exact h3 j (Finset.mem_of_mem_erase hj)
        · intro e he
          rcases List.mem_append.mp he with he | he
          · exact h4 e he
          · rw [List.mem_singleton] at he
            subst he
            exact h3 i hin
        · rw [List.map_append, List.nodup_append]
          refine ⟨h5, List.nodup_singleton _, ?_⟩
          intro a ha hb
          simp only [List.map_cons, List.map_nil, List.mem_singleton] at hb
          subst hb
          rcases List.mem_map.mp ha with ⟨e, he, hei⟩
          exact h6 e he (hei ▸ hin)
        · intro e he
          rcases List.mem_append.mp he with he | he
          · intro hmem
            exact h6 e he (Finset.mem_of_mem_erase hmem)
          · rw [List.mem_singleton] at he
            subst he
            exact Finset.not_mem_erase _ _
      · simpa [step, hin] using ⟨h1, h2, h3, h4, h5, h6⟩

theorem reachable_inv (s : HostState) (h : Reachable s) : Inv s := by
  induction h with
  | init => exact inv_initial
  | next s e _ ih => exact inv_step s e ih

theorem sampleHost_reachable : Reachable sampleHost :=
  Reachable.next _ HostEvent.send
    (Reachable.next _ (HostEvent.recv readyMsg)
      (Reachable.next _ HostEvent.initWorker Reachable.init))

/-- C1: correlation correctness.  In every reachable host state the ids
handed out by sendMessage are strictly increasing (hence unique within the
controller lifetime); when the worker is up and ready a send allocates the
fresh id messageId + 1, which is not among the pending ids; and a
non-progress, non-ready worker reply carrying id i with i pending settles
exactly that promise — it appends exactly one settlement for i to the log
and removes exactly the entry i from the pending map — independently of
arrival order. -/
theorem correlation_correct (s : HostState) (hs : Reachable s) :
    s.allocated.Pairwise (fun a b => a < b)
    ∧ (s.workerUp = true → s.ready = true →
        (step s HostEvent.send).allocated = s.allocated ++ [s.messageId + 1]
        ∧ (s.messageId + 1) ∉ s.pending
        ∧ (∀ i ∈ s.allocated, i < s.messageId + 1))
    ∧ (∀ r : WorkerResponseMsg, ∀ i : Nat,
        r.progressFlag = false → r.ready = false → r.id = some i →
        i ∈ s.pending →
        (step s (HostEvent.recv r)).settled
            = s.settled ++ [{ id := i, outcome := replySettle r }]
        ∧ (step s (HostEvent.recv r)).pending = s.pending.erase i) := by
  obtain ⟨h1, h2, h3, h4, h5, h6⟩ := reachable_inv s hs
  refine ⟨h1, ?_, ?_⟩
  · intro hw hr
    have hstep : step s HostEvent.send =
        { s with
          messageId := s.messageId + 1,
          pending := insert (s.messageId + 1) s.pending,
          allocated := s.allocated ++ [s.messageId + 1] } := by
      simp [step, hw, hr]
    refine ⟨by rw [hstep], ?_, ?_⟩
    · intro hmem
      have := (h2 _ (h3 _ hmem)).2
      omega
    · intro i hi
      have := (h2 i hi).2
      omega
  · intro r i hp hr hid hin
    have hstep : step s (HostEvent.recv r) =
        { s with
          pending := s.pending.erase i,
          settled := s.settled ++ [{ id := i, outcome := replySettle r }] } := by
      simp [step, hp, hr, hid, hin]
    exact ⟨by rw [hstep], by rw [hstep]⟩

theorem correlation_correct_witness :
    (step sampleHost (HostEvent.recv sampleReply)).settled
        = sampleHost.settled ++ [{ id := 1, outcome := replySettle sampleReply }]
    ∧ (step sampleHost (HostEvent.recv sampleReply)).pending
        = sampleHost.pending.erase 1 :=
  (correlation_correct sampleHost sampleHost_reachable).2.2 sampleReply 1
    rfl rfl rfl (by decide)

/-- C2: no leak on timeout and late replies dropped.  In every reachable
state: firing the timer of a pending id removes exactly that entry and
appends exactly one timeout rejection for it; a reply whose id has no
pending entry leaves the state completely unchanged (silently dropped); no
id is ever settled twice; the pending map holds no entry for a settled id;
and a pending entry survives every event other than a reply or timer for
its own id, so a request whose reply never arrives stays pending until its
timer fires. -/
theorem timeout_no_leak (s : HostState) (hs : Reachable s) :
    (∀ i ∈ s.pending,
        (step s (HostEvent.timerFire i)).pending = s.pending.erase i
        ∧ (step s (HostEvent.timerFire i)).settled
            = s.settled ++ [{ id := i, outcome := Outcome.rejectedTimeout }])
    ∧ (∀ r : WorkerResponseMsg, ∀ i : Nat,
        r.progressFlag = false → r.ready = false → r.id = some i →
        i ∉ s.pending → step s (HostEvent.recv r) = s)
    ∧ ((s.settled.map Settled.id).Nodup)
    ∧ (∀ e ∈ s.settled, e.id ∉ s.pending)
    ∧ (∀ i ∈ s.pending, ∀ e : HostEvent,
        (∀ r, e = HostEvent.recv r → r.id ≠ some i) →
        e ≠ HostEvent.timerFire i → i ∈ (step s e).pending) := by
  obtain ⟨h1, h2, h3, h4, h5, h6⟩ := reachable_inv s hs
  refine ⟨?_, ?_, h5, h6, ?_⟩
  · intro i hin
    have hstep : step s (HostEvent.timerFire i) =
        { s with
          pending := s.pending.erase i,
          settled := s.settled ++
            [{ id := i, outcome := Outcome.rejectedTimeout }] } := by
      simp [step, hin]
    exact ⟨by rw [hstep], by rw [hstep]⟩
  · intro r i hp hr hid hin
    simp [step, hp, hr, hid, hin]
  · intro i hin e hrecv htimer
    cases e with
    | initWorker =>
        by_cases hc : (s.loading || s.ready) = true <;> simp [step, hc, hin]
    | send =>
        by_cases hw : s.workerUp = false
        · simpa [step, hw] using hin
        · by_cases hr : s.ready = false
          · simpa [step, hw, hr] using hin
          · have hstep : step s HostEvent.send =
                { s with
                  messageId := s.messageId + 1,
                  pending := insert (s.messageId + 1) s.pending,
                  allocated := s.allocated ++ [s.messageId + 1] } := by
              simp [step, hw, hr]
            rw [hstep]
            exact Finset.mem_insert_of_mem hin
    | recv r =>
        have hne : r.id ≠ some i := hrecv r rfl
        by_cases hp : r.progressFlag = true
        · simpa [step, hp] using hin
        · by_cases hrdy : r.ready = true
          · have hstep : step s (HostEvent.recv r) =
                { s with ready := true, loading := false } := by
              simp [step, hp, hrdy]
            rw [hstep]
            exact hin
          · cases hid : r.id with
            | none => simpa [step, hp, hrdy, hid] using hin
            | some j =>
                have hji : j ≠ i := by
                  intro hji
                  exact hne (by rw [hid, hji])
                by_cases hjin : j ∈ s.pending
                · have hstep : step s (HostEvent.recv r) =
                      { s with
                        pending := s.pending.erase j,
                        settled := s.settled ++
                          [{ id := j, outcome := replySettle r }] } := by
                    simp [step, hp, hrdy, hid, hjin]
                  rw [hstep]
                  exact Finset.mem_erase.mpr ⟨fun h => hji h.symm, hin⟩
                · simpa [step, hp, hrdy, hid, hjin] using hin
    | timerFire j =>
        have hji : j ≠ i := by
          intro hji
          exact htimer (by rw [hji])
        by_cases hjin : j ∈ s.pending
        · have hstep : step s (HostEvent.timerFire j) =
              { s with
                pending := s.pending.erase j,
                settled := s.settled ++
                  [{ id := j, outcome := Outcome.rejectedTimeout }] } := by
            simp [step, hjin]
          rw [hstep]
          exact Finset.mem_erase.mpr ⟨fun h => hji h.symm, hin⟩
        · simpa [step, hjin] using hin

theorem timeout_no_leak_witness :
    ((step sampleHost (HostEvent.timerFire 1)).pending = sampleHost.pending.erase 1
      ∧ (step sampleHost (HostEvent.timerFire 1)).settled
          = sampleHost.settled
            ++ [{ id := 1, outcome := Outcome.rejectedTimeout }])
    ∧ step sampleHost (HostEvent.recv lateReply) = sampleHost := by
  have h := timeout_no_leak sampleHost sampleHost_reachable
  exact ⟨h.1 1 (by decide), h.2.1 lateReply 5 rfl rfl rfl (by decide)⟩

/-- C3: exactly one terminal reply per request.  For every environment,
installed set and incoming message, the onmessage handler posts exactly
one reply, that reply echoes the incoming id verbatim, and it carries
either a result with no error (success) or an error string with no result
(failure, including the unknown message type arm and a rejected bootstrap
promise).  It never posts two terminal replies for one message. -/
theorem worker_single_reply (env : WorkerEnv) (set : Finset String)
    (m : WorkerMessage) :
    ∃ rep : WorkerReply,
      (onmessage env set m).1 = [rep]
      ∧ rep.id = some m.id
      ∧ ((∃ v, rep.result = some v ∧ rep.error = none)
          ∨ (∃ e, rep.error = some e ∧ rep.result = none)) := by
  unfold onmessage
  cases henv : env.initErr with
  | some e => exact ⟨_, rfl, rfl, Or.inr ⟨e, rfl, rfl⟩⟩
  | none =>
      cases hd : dispatchOp env set m with
      | mk res set2 =>
          cases res with
          | ok v => exact ⟨_, rfl, rfl, Or.inl ⟨v, rfl, rfl⟩⟩
          | error e => exact ⟨_, rfl, rfl, Or.inr ⟨e, rfl, rfl⟩⟩

/-- C4: re-entrant init.  From a controller that is neither initialized
nor carrying an in-flight promise, the first init call starts attempt
attempts + 1 and performs exactly one Worker construction; a second init
call made before settlement changes nothing and returns the very same
in-flight promise (so both callers settle together); and an init call on
an already initialized controller is a no-op returning an immediately
resolved promise. -/
theorem reentrant_init (c : Controller) (h1 : c.initialized = false)
    (h2 : c.initPromise = none) :
    (initCall c).2 = InitReturn.started (c.attempts + 1)
    ∧ (initCall c).1.workerCreations = c.workerCreations + 1
    ∧ initCall (initCall c).1
        = ((initCall c).1, InitReturn.joined (c.attempts + 1))
    ∧ (∀ c2 : Controller, c2.initialized = true →
        initCall c2 = (c2, InitReturn.alreadyInitialized)) := by
  refine ⟨by simp [initCall, h1, h2], by simp [initCall, h1, h2], ?_, ?_⟩
  · simp [initCall, h1, h2]
  · intro c2 hc2
    simp [initCall, hc2]

theorem reentrant_init_witness :
    (initCall initialController).2 = InitReturn.started 1
    ∧ (initCall initialController).1.workerCreations = 1
    ∧ initCall (initCall initialController).1
        = ((initCall initialController).1, InitReturn.joined 1) := by
  have h := reentrant_init initialController rfl rfl
  exact ⟨h.1, h.2.1, h.2.2.1⟩

/-- C8 counterexample: after a failed init attempt, a public call does not
fail fast.  Starting from the fresh controller, one init call followed by
the failure of its doInitialize attempt, a subsequent public call (render
or renderDOM through ensureInitialized) starts a second doInitialize
attempt in place — including a second Worker construction — instead of
failing fast, refuting the claim that no public call restarts
initialization after a failure. -/
theorem failed_init_counterexample :
    (ensureInit (attemptFails (initCall initialController).1)).2
        = EnsureAction.startedInit 2
    ∧ (ensureInit (attemptFails (initCall initialController).1)).1.attempts = 2
    ∧ (ensureInit (attemptFails (initCall initialController).1)).1.workerCreations
        = 2 := by
  decide

/-- C8 amended: after a failed init attempt the controller clears its
in-flight promise and remains uninitialized; a subsequent public call then
transparently restarts initialization through ensureInitialized — starting
a fresh doInitialize attempt and constructing a new worker — rather than
failing fast, and no teardown is required before the retry. -/
theorem failed_init_amended (c : Controller) (h : c.initialized = false) :
    (attemptFails c).initialized = false
    ∧ (attemptFails c).initPromise = none
    ∧ (ensureInit (attemptFails c)).2 = EnsureAction.startedInit (c.attempts + 1)
    ∧ (ensureInit (attemptFails c)).1.attempts = c.attempts + 1
    ∧ (ensureInit (attemptFails c)).1.workerCreations = c.workerCreations + 1 := by
  refine ⟨by simp [attemptFails, h], rfl, ?_, ?_, ?_⟩ <;>
    simp [attemptFails, ensureInit, initCall, h]

theorem failed_init_amended_witness :
    (ensureInit (attemptFails initialController)).2 = EnsureAction.startedInit 1
    ∧ (ensureInit (attemptFails initialController)).1.workerCreations = 1 := by
  have h := failed_init_amended initialController rfl
  exact ⟨h.2.2.1, h.2.2.2.2⟩

/-- C9: idempotent cleanup.  cleanup is a total function (calling it in
any state, including an already torn down one, produces no error), running
it twice gives exactly the state after running it once, it always releases
the singleton reference, and the destroyDjango it applies to any live
state nulls the worker handle, empties the pending map, clears ready and
loading, and is itself idempotent. -/
theorem cleanup_idempotent (g : Option PlaygroundInstance) (s : HostState) :
    cleanup (cleanup g) = cleanup g
    ∧ cleanup g = none
    ∧ (destroyDjango s).workerUp = false
    ∧ (destroyDjango s).pending = ∅
    ∧ (destroyDjango s).ready = false
    ∧ (destroyDjango s).loading = false
    ∧ destroyDjango (destroyDjango s) = destroyDjango s := by
  refine ⟨?_, ?_, rfl, rfl, rfl, rfl, rfl⟩ <;> cases g <;> rfl

theorem mem_dedup_foldl {α : Type} [DecidableEq α] (l : List α) (acc : List α)
    (b : α) :
    (b ∈ l.foldl (fun acc2 a => if a ∈ acc2 then acc2 else acc2 ++ [a]) acc)
      ↔ b ∈ acc ∨ b ∈ l := by
  induction l generalizing acc with
  | nil => simp
  | cons a t ih =>
      simp only [List.foldl_cons]
      by_cases h : a ∈ acc
      · rw [if_pos h, ih]
        constructor
        · rintro (hb | hb)
          · exact Or.inl hb
          · exact Or.inr (List.mem_cons_of_mem _ hb)
        · rintro (hb | hb)
          · exact Or.inl hb
          · rcases List.mem_cons.mp hb with rfl | hb
            · exact Or.inl h
            · exact Or.inr hb
      · rw [if_neg h, ih]
        simp only [List.mem_append, List.mem_singleton, List.mem_cons]
        tauto

theorem nodup_dedup_foldl {α : Type} [DecidableEq α] (l : List α) (acc : List α)
    (h : acc.Nodup) :
    (l.foldl (fun acc2 a => if a ∈ acc2 then acc2 else acc2 ++ [a]) acc).Nodup := by
  induction l generalizing acc with
  | nil => simpa using h
  | cons a t ih =>
      simp only [List.foldl_cons]
      by_cases ha : a ∈ acc
      · rw [if_pos ha]
        exact ih acc h
      · rw [if_neg ha]
        refine ih _ ?_
        simp [List.nodup_append, h, ha]

theorem mem_setDedup {α : Type} [DecidableEq α] (l : List α) (b : α) :
    b ∈ setDedup l ↔ b ∈ l := by
  rw [setDedup, mem_dedup_foldl]
  simp

theorem nodup_setDedup {α : Type} [DecidableEq α] (l : List α) :
    (setDedup l).Nodup :=
  nodup_dedup_foldl l [] (List.nodup_nil)

/-- C5 counterexample: with two DOM elements both declaring the dependency
foo and no configured packages, a DOM-driven batch run dispatches three
install payloads containing foo over the transport — the deduplicated
batch install of doInitialize plus one per-element install from
renderDOMElement for each of the two elements — refuting the claim that at
most one install attempt for a name is dispatched. -/
theorem install_dedup_counterexample :
    ((batchRunInstallDispatches [] [fooElem, fooElem]).countP
        (fun l => decide (JsonItem.strItem "foo" ∈ l))) = 3
    ∧ ¬ (((batchRunInstallDispatches [] [fooElem, fooElem]).countP
        (fun l => decide (JsonItem.strItem "foo" ∈ l))) ≤ 1) := by
  decide

/-- C5 amended: the per-element dependency lists discovered by the scan
are unioned with the globally configured list and deduplicated with set
semantics for the single batch install of doInitialize, in which each name
occurs at most once; but every dispatched install payload of the batch run
is either that deduplicated union or the raw package list of one element
(re-dispatched by renderDOMElement before that element renders), so a name
declared by several elements crosses the transport in more than one
install message. -/
theorem install_dedup_amended (optPackages : List String) (dom : List DomElem) :
    (collectPackages optPackages dom).Nodup
    ∧ (∀ j, j ∈ collectPackages optPackages dom ↔
        j ∈ optPackages.map JsonItem.strItem
        ∨ j ∈ (scanDOMForTemplates dom).packages)
    ∧ (∀ l ∈ batchRunInstallDispatches optPackages dom,
        l = collectPackages optPackages dom
        ∨ ∃ d ∈ (scanDOMForTemplates dom).elements,
            l = d.packages.map JsonItem.strItem) := by
  refine ⟨nodup_setDedup _, ?_, ?_⟩
  · intro j
    rw [collectPackages, mem_setDedup, List.mem_append]
  · intro l hl
    rw [batchRunInstallDispatches] at hl
    rcases List.mem_append.mp hl with hl | hl
    · left
      by_cases hlen : (collectPackages optPackages dom).length > 0
      · rw [if_pos hlen] at hl
        exact (List.mem_singleton.mp hl)
      · rw [if_neg hlen] at hl
        exact absurd hl (List.not_mem_nil l)
    · right
      rcases List.mem_filterMap.mp hl with ⟨d, hd, hfd⟩
      refine ⟨d, hd, ?_⟩
      by_cases hlen : d.packages.length > 0
      · rw [if_pos hlen] at hfd
        exact (Option.some.injEq _ _ ▸ hfd).symm
      · rw [if_neg hlen] at hfd
        exact absurd hfd (Option.noConfusion)

theorem install_dedup_amended_witness :
    (collectPackages [] [fooElem, fooElem]).Nodup
    ∧ (JsonItem.strItem "foo" ∈ collectPackages [] [fooElem, fooElem] ↔
        JsonItem.strItem "foo" ∈ ([] : List String).map JsonItem.strItem
        ∨ JsonItem.strItem "foo" ∈ (scanDOMForTemplates [fooElem, fooElem]).packages)
    ∧ ([JsonItem.strItem "foo"] = collectPackages [] [fooElem, fooElem]
        ∨ ∃ d ∈ (scanDOMForTemplates [fooElem, fooElem]).elements,
            [JsonItem.strItem "foo"] = d.packages.map JsonItem.strItem) := by
  have h := install_dedup_amended [] [fooElem, fooElem]
  exact ⟨h.1, h.2.1 (JsonItem.strItem "foo"),
    h.2.2 [JsonItem.strItem "foo"] (by decide)⟩

theorem scanTemplatePass_elements (l : List DomElem) :
    (scanTemplatePass l).1
      = l.filterMap (fun el => (extractElementData el).toOption) := by
  induction l with
  | nil => rfl
  | cons el rest ih =>
      cases hex : extractElementData el with
      | ok d => simp [scanTemplatePass, hex, ih, Except.toOption]
      | error e => simp [scanTemplatePass, hex, ih, Except.toOption]

theorem scanTemplatePass_errors_length (l : List DomElem) :
    (scanTemplatePass l).2.2.length
      = l.countP (fun el => !(extractElementData el).toOption.isSome) := by
  induction l with
  | nil => rfl
  | cons el rest ih =>
      cases hex : extractElementData el with
      | ok d => simp [scanTemplatePass, hex, ih, Except.toOption, List.countP_cons]
      | error e => simp [scanTemplatePass, hex, ih, Except.toOption, List.countP_cons]

theorem scanPackagePass_errors_length (l : List DomElem) :
    (scanPackagePass l).2.length
      = l.countP (fun el => decide (el.packagesAttr = AttrVal.invalid)
          && decide (el.templateAttr = AttrVal.absent)) := by
  induction l with
  | nil => rfl
  | cons el rest ih =>
      rcases el with ⟨ta, pa, inner, la, ea⟩
      cases pa with
      | valid j =>
          cases j <;> cases ta <;> simp [scanPackagePass, List.countP_cons, ih]
      | absent => cases ta <;> simp [scanPackagePass, List.countP_cons, ih]
      | emptyStr => cases ta <;> simp [scanPackagePass, List.countP_cons, ih]
      | invalid => cases ta <;> simp [scanPackagePass, List.countP_cons, ih]

/-- C6 counterexample: a DOM holding one element whose context attribute
is invalid JSON and one valid element.  The invalid element is excluded
from the scan result (only the valid element, with innerHTML z, survives)
even though a per-element error is recorded, refuting the claim that the
element is still included and rendered with an empty context. -/
theorem invalid_context_counterexample :
    (scanDOMForTemplates [badCtxElem, goodElem]).elements.length = 1
    ∧ (scanDOMForTemplates [badCtxElem, goodElem]).elements.map
        DomElementData.template = ["z"]
    ∧ (scanDOMForTemplates [badCtxElem, goodElem]).errors.length = 1
    ∧ (scanDOMForTemplates [badCtxElem, goodElem]).success = false := by
  decide

/-- C6 amended: invalid context JSON is a per-element error and is not
batch-fatal, but the element is dropped rather than defaulted: the scan
result elements are exactly the successful extractions of the
template-tagged elements in document order (so an element with invalid
context JSON is excluded and never rendered, while every other element is
unaffected), each failing element contributes exactly one recorded error
(as does each standalone packages element with invalid JSON), and success
holds iff no error was recorded. -/
theorem invalid_context_amended (dom : List DomElem) :
    (scanDOMForTemplates dom).elements
        = (templateElems dom).filterMap (fun el => (extractElementData el).toOption)
    ∧ (scanDOMForTemplates dom).errors.length
        = (templateElems dom).countP
            (fun el => !(extractElementData el).toOption.isSome)
          + dom.countP (fun el => decide (el.packagesAttr = AttrVal.invalid)
              && decide (el.templateAttr = AttrVal.absent))
    ∧ ((scanDOMForTemplates dom).success = true
        ↔ (scanDOMForTemplates dom).errors = []) := by
  refine ⟨scanTemplatePass_elements _, ?_, ?_⟩
  · simp [scanDOMForTemplates, scanTemplatePass_errors_length,
      scanPackagePass_errors_length]
  · simp [scanDOMForTemplates, List.isEmpty_iff]

theorem renderRun_length (o : Nat → ElemOutcome) (k : Nat)
    (ds : List DomElementData) :
    (renderRun o k ds).length = ds.length := by
  induction ds generalizing k with
  | nil => rfl
  | cons d rest ih => simp [renderRun, ih]

theorem renderRun_getD (o : Nat → ElemOutcome) (k i : Nat)
    (ds : List DomElementData) (h : i < ds.length) :
    (renderRun o k ds).getD i dummyView
      = processElement (ds.getD i dummyData) (o (k + i)) := by
  induction ds generalizing k i with
  | nil => simp at h
  | cons d rest ih =>
      cases i with
      | zero => simp [renderRun]
      | succ n =>
          have hn : n < rest.length := by simpa using h
          simp only [renderRun, List.getD_cons_succ]
          rw [ih (k + 1) n hn]
          have harith : k + 1 + n = k + (n + 1) := by omega
          rw [harith]

/-- C7: batch isolation.  The renderDOMTemplates loop is a total function
(no exception from an individual element escapes it) that processes every
discovered element; the final state of the element at position i depends
only on that element and its own outcome, so changing any other element
outcome — in particular making another element fail — leaves it unchanged;
and an element whose render call rejects, or whose element-specific
install call rejects, ends with its content replaced by the visible
django-error indicator built by showElementError. -/
theorem batch_isolation (o1 o2 : Nat → ElemOutcome) (ds : List DomElementData)
    (i : Nat) (h : i < ds.length) (hsame : o1 i = o2 i) :
    (renderRun o1 0 ds).length = ds.length
    ∧ (renderRun o1 0 ds).getD i dummyView
        = processElement (ds.getD i dummyData) (o1 i)
    ∧ (renderRun o1 0 ds).getD i dummyView
        = (renderRun o2 0 ds).getD i dummyView
    ∧ (∀ msg, o1 i = ElemOutcome.renderFailed msg
          ∨ o1 i = ElemOutcome.installRejected msg →
        (renderRun o1 0 ds).getD i dummyView
            = showElementError (ds.getD i dummyData) msg
        ∧ ((renderRun o1 0 ds).getD i dummyView).errorClass = true) := by
  have g1 := renderRun_getD o1 0 i ds h
  have g2 := renderRun_getD o2 0 i ds h
  simp only [Nat.zero_add] at g1 g2
  refine ⟨renderRun_length o1 0 ds, g1, by rw [g1, g2, hsame], ?_⟩
  intro msg hmsg
  rcases hmsg with hm | hm <;>
    rw [g1, hm] <;>
    exact ⟨rfl, rfl⟩

theorem batch_isolation_witness :
    (renderRun oneFailOutcomes 0 [dummyData, dummyData]).length = 2
    ∧ ((renderRun oneFailOutcomes 0 [dummyData, dummyData]).getD 0
        dummyView).errorClass = true := by
  have h := batch_isolation oneFailOutcomes oneFailOutcomes
    [dummyData, dummyData] 0 (by decide) rfl
  exact ⟨h.1, (h.2.2.2 "boom" (Or.inl rfl)).2⟩

theorem installPackages_lengths (mp : String → Option String)
    (set : Finset String) (names : List String) :
    (installPackages mp set names).1.installed.length
      + (installPackages mp set names).1.skipped.length
      + (installPackages mp set names).1.errors.length = names.length := by
  induction names generalizing set with
  | nil => rfl
  | cons n rest ih =>
      by_cases hn : n ∈ set
      · have := ih set
        simp only [installPackages, if_pos hn, List.length_cons]
        omega
      · cases hmp : mp n with
        | none =>
            have := ih (insert n set)
            simp only [installPackages, if_neg hn, hmp, List.length_cons]
            omega
        | some msg =>
            have := ih set
            simp only [installPackages, if_neg hn, hmp, List.length_cons]
            omega

theorem installPackages_success_iff (mp : String → Option String)
    (set : Finset String) (names : List String) :
    (installPackages mp set names).1.success = true
      ↔ (installPackages mp set names).1.errors = [] := by
  induction names generalizing set with
  | nil => simp [installPackages]
  | cons n rest ih =>
      by_cases hn : n ∈ set
      · simpa [installPackages, hn] using ih set
      · cases hmp : mp n with
        | none => simpa [installPackages, hn, hmp] using ih (insert n set)
        | some msg => simp [installPackages, hn, hmp]

theorem installPackages_set_grows (mp : String → Option String)
    (set : Finset String) (names : List String) :
    set ⊆ (installPackages mp set names).2 := by
  induction names generalizing set with
  | nil => exact Finset.Subset.refl set
  | cons n rest ih =>
      by_cases hn : n ∈ set
      · simpa [installPackages, hn] using ih set
      · cases hmp : mp n with
        | none =>
            simp only [installPackages, if_neg hn, hmp]
            exact Finset.Subset.trans (Finset.subset_insert n set)
              (ih (insert n set))
        | some msg => simpa [installPackages, hn, hmp] using ih set

theorem installPackages_installed_sublist (mp : String → Option String)
    (set : Finset String) (names : List String) :
    (installPackages mp set names).1.installed.Sublist names := by
  induction names generalizing set with
  | nil => simp [installPackages]
  | cons n rest ih =>
      by_cases hn : n ∈ set
      · simp only [installPackages, if_pos hn]
        exact List.Sublist.cons n (ih set)
      · cases hmp : mp n with
        | none =>
            simp only [installPackages, if_neg hn, hmp]
            exact List.Sublist.cons₂ n (ih (insert n set))
        | some msg =>
            simp only [installPackages, if_neg hn, hmp]
            exact List.Sublist.cons n (ih set)

theorem installPackages_skipped_sublist (mp : String → Option String)
    (set : Finset String) (names : List String) :
    (installPackages mp set names).1.skipped.Sublist names := by
  induction names generalizing set with
  | nil => simp [installPackages]
  | cons n rest ih =>
      by_cases hn : n ∈ set
      · simp only [installPackages, if_pos hn]
        exact List.Sublist.cons₂ n (ih set)
      · cases hmp : mp n with
        | none =>
            simp only [installPackages, if_neg hn, hmp]
            exact List.Sublist.cons n (ih (insert n set))
        | some msg =>
            simp only [installPackages, if_neg hn, hmp]
            exact List.Sublist.cons n (ih set)

theorem installPackages_not_both (mp : String → Option String)
    (set : Finset String) (names : List String) (hnd : names.Nodup) (x : String) :
    ¬ (x ∈ (installPackages mp set names).1.installed
        ∧ x ∈ (installPackages mp set names).1.skipped) := by
  induction names generalizing set with
  | nil => simp [installPackages]
  | cons n rest ih =>
      have hn_rest : n ∉ rest := (List.nodup_cons.mp hnd).1
      have hnd_rest : rest.Nodup := (List.nodup_cons.mp hnd).2
      by_cases hn : n ∈ set
      · simp only [installPackages, if_pos hn]
        rintro ⟨hi, hs⟩
        rcases List.mem_cons.mp hs with hx | hs
        · exact hn_rest
            (hx ▸ ((installPackages_installed_sublist mp set rest).subset hi))
        · exact ih set hnd_rest ⟨hi, hs⟩
      · cases hmp : mp n with
        | none =>
            simp only [installPackages, if_neg hn, hmp]
            rintro ⟨hi, hs⟩
            rcases List.mem_cons.mp hi with hx | hi
            · exact hn_rest
                (hx ▸ ((installPackages_skipped_sublist mp
                  (insert n set) rest).subset hs))
            · exact ih (insert n set) hnd_rest ⟨hi, hs⟩
        | some msg =>
            simp only [installPackages, if_neg hn, hmp]
            exact ih set hnd_rest

/-- C10 counterexample: with an empty installed set and micropip always
succeeding, the request list with the name a twice yields a result whose
installed and skipped lists both contain a, so a requested name is
associated with two of the three result lists, refuting the claim that
each requested name ends up in exactly one of them. -/
theorem install_partition_counterexample :
    "a" ∈ (installPackages (fun _ => none) ∅ ["a", "a"]).1.installed
    ∧ "a" ∈ (installPackages (fun _ => none) ∅ ["a", "a"]).1.skipped := by
  decide

/-- C10 amended: each position of the requested list contributes exactly
one entry to exactly one of the three result lists, so their lengths sum
to the request length; the success flag is true iff the errors list is
empty; for a duplicate-free request list no name lands in both installed
and skipped; installed and skipped are selections from the request list;
and the installed-package set only ever grows. -/
theorem install_partition_amended (mp : String → Option String)
    (set : Finset String) (names : List String) :
    (installPackages mp set names).1.installed.length
      + (installPackages mp set names).1.skipped.length
      + (installPackages mp set names).1.errors.length = names.length
    ∧ ((installPackages mp set names).1.success = true
        ↔ (installPackages mp set names).1.errors = [])
    ∧ set ⊆ (installPackages mp set names).2
    ∧ (installPackages mp set names).1.installed.Sublist names
    ∧ (installPackages mp set names).1.skipped.Sublist names
    ∧ (names.Nodup → ∀ x, ¬ (x ∈ (installPackages mp set names).1.installed
        ∧ x ∈ (installPackages mp set names).1.skipped)) :=
  ⟨installPackages_lengths mp set names,
    installPackages_success_iff mp set names,
    installPackages_set_grows mp set names,
    installPackages_installed_sublist mp set names,
    installPackages_skipped_sublist mp set names,
    fun hnd x => installPackages_not_both mp set names hnd x⟩

theorem install_partition_amended_witness :
    (installPackages (fun n => if n = "b" then some "boom" else none)
        ∅ ["a", "b"]).1.installed.length
      + (installPackages (fun n => if n = "b" then some "boom" else none)
          ∅ ["a", "b"]).1.skipped.length
      + (installPackages (fun n => if n = "b" then some "boom" else none)
          ∅ ["a", "b"]).1.errors.length = 2
    ∧ ¬ ("a" ∈ (installPackages (fun n => if n = "b" then some "boom" else none)
          ∅ ["a", "b"]).1.installed
        ∧ "a" ∈ (installPackages (fun n => if n = "b" then some "boom" else none)
          ∅ ["a", "b"]).1.skipped) := by
  have h := install_partition_amended
    (fun n => if n = "b" then some "boom" else none) ∅ ["a", "b"]
  exact ⟨h.1, h.2.2.2.2.2 (by decide) "a"⟩

end DjangoBird
